import Mathlib

/-!
Verification of the session-establishment module of the fbvibex repository
(source file: the login module, `src/unnamed/part_001`).

The JavaScript code is shallowly embedded: strings are Lean `String`s
(manipulated through their underlying `List Char`), JavaScript truthiness of
optional strings/numbers is made explicit, thrown exceptions become `Except`,
and the two sources of nondeterminism (`Math.random` region choice, the wall
clock `Date.now()`) become explicit parameters.
-/

namespace Fbvibex

/-! ## JavaScript string primitives -/

/-- JavaScript truthiness of a possibly-missing string: `undefined` and the
empty string are falsy. -/
def optTruthy : Option String → Bool
  | none => false
  | some s => s ≠ ""

/-- Whitespace characters removed by JavaScript `String.prototype.trim`
(ASCII part; the sources only ever trim ASCII text). -/
def jsWS (c : Char) : Bool :=
  c = ' ' || c = '\t' || c = '\n' || c = '\r' || c = '\x0b' || c = '\x0c'

/-- Trim on the character list underlying a string. -/
def trimL (s : List Char) : List Char :=
  ((s.dropWhile jsWS).reverse.dropWhile jsWS).reverse

/-- JavaScript `s.trim()`. -/
def jsTrim (s : String) : String := ⟨trimL s.data⟩

/-- JavaScript `s.toLowerCase()` (ASCII; the code only lowercases ASCII). -/
def toLowerStr (s : String) : String := ⟨s.data.map Char.toLower⟩

/-- JavaScript `s.toUpperCase()` (ASCII; region codes are ASCII). -/
def toUpperStr (s : String) : String := ⟨s.data.map Char.toUpper⟩

/-- JavaScript `s.charAt(0).toUpperCase() + s.slice(1)`. -/
def capFirst (s : String) : String :=
  match s.data with
  | [] => ""
  | c :: rest => ⟨Char.toUpper c :: rest⟩

/-- Substring occurrence on character lists; `containsL pat s` is
JavaScript `s.includes(pat)` (the empty pattern occurs everywhere). -/
def containsL (pat : List Char) : List Char → Bool
  | [] => pat.isPrefixOf []
  | c :: rest => pat.isPrefixOf (c :: rest) || containsL pat rest

/-- JavaScript `s.includes(pat)`. -/
def strIncludes (s pat : String) : Bool := containsL pat.data s.data

/-- `s.replace(pat, "")` for a string pattern: remove the first occurrence
of `pat` from `s` (unchanged when absent), on character lists. -/
def replaceFirstL (pat : List Char) : List Char → List Char
  | [] => []
  | c :: rest =>
    if pat.isPrefixOf (c :: rest) then (c :: rest).drop pat.length
    else c :: replaceFirstL pat rest

/-- JavaScript `s.replace(pat, "")` (first occurrence only). -/
def jsReplaceEmpty (s pat : String) : String := ⟨replaceFirstL pat.data s.data⟩

/-- Split on a separator character, JavaScript `s.split(sep)` semantics:
`"".split(";") = [""]`, separators at the ends yield empty fields. -/
def splitCharAux (sep : Char) : List Char → List Char → List (List Char)
  | [], acc => [acc.reverse]
  | c :: rest, acc =>
    if c = sep then acc.reverse :: splitCharAux sep rest []
    else splitCharAux sep rest (c :: acc)

/-- JavaScript `s.split(sep)` for a one-character separator. -/
def splitChar (sep : Char) (s : List Char) : List (List Char) :=
  splitCharAux sep s []

/-- JavaScript `array.join(sep)`. -/
def joinSep (sep : String) : List String → String
  | [] => ""
  | [x] => x
  | x :: y :: rest => x ++ sep ++ joinSep sep (y :: rest)

/-- The part of `s` before the first `'='`, i.e. `s.split("=")[0]`. -/
def firstFieldL : List Char → List Char
  | [] => []
  | c :: rest => if c = '=' then [] else c :: firstFieldL rest

/-- `s.split("=")[0]`. -/
def firstField (s : String) : String := ⟨firstFieldL s.data⟩

/-! ## Region catalog and `validateRegion` -/

/-- A region record, as in `config.defaultRegions`. -/
structure Region where
  code : String
  name : String
  location : String
deriving DecidableEq, Repr

/-- The fixed catalog `config.defaultRegions` (11 entries). -/
def defaultRegions : List Region :=
  [ ⟨"PRN", "Pacific Northwest Region", "Pacific Northwest"⟩,
    ⟨"VLL", "Valley Region", "Valley"⟩,
    ⟨"ASH", "Ashburn Region", "Ashburn"⟩,
    ⟨"DFW", "Dallas/Fort Worth Region", "Dallas/Fort Worth"⟩,
    ⟨"LLA", "Los Angeles Region", "Los Angeles"⟩,
    ⟨"FRA", "Frankfurt", "Frankfurt"⟩,
    ⟨"SIN", "Singapore", "Singapore"⟩,
    ⟨"NRT", "Tokyo", "Japan"⟩,
    ⟨"HKG", "Hong Kong", "Hong Kong"⟩,
    ⟨"SYD", "Sydney", "Sydney"⟩,
    ⟨"PNB", "Pacific Northwest - Beta", "Pacific Northwest"⟩ ]

/-- `config.defaultRegions.map(r => r.code).join(", ")`, the catalog listing
embedded in both `validateRegion` error messages. -/
def supportedRegions : String := joinSep ", " (defaultRegions.map (·.code))

/-- `validateRegion(regionCode)`: `none` stands for a missing or non-string
argument.  Throws (`Except.error`) with the catalog listed when the argument
is empty/blank or not a catalog code (case-insensitively); otherwise returns
the catalog entry. -/
def validateRegion (regionCode : Option String) : Except String Region :=
  match regionCode with
  | none =>
      .error ("Region code must be a non-empty string. Supported regions: " ++
        supportedRegions)
  | some s =>
      if s = "" ∨ jsTrim s = "" then
        .error ("Region code must be a non-empty string. Supported regions: " ++
          supportedRegions)
      else
        let code := toUpperStr (jsTrim s)
        match defaultRegions.find? (fun r => toUpperStr r.code == code) with
        | some r => .ok r
        | none =>
            .error ("Invalid region code: " ++ s ++ ". Supported regions: " ++
              supportedRegions)

/-- `getRandomRegion()`: `Math.floor(Math.random() * length)` is modelled by
the explicit index `i`, always in `[0, 11)` at run time. -/
def getRandomRegion (i : Nat) : Region :=
  defaultRegions.getD i ⟨"PRN", "Pacific Northwest Region", "Pacific Northwest"⟩

/-! ## A small matcher for the module's literal-delimited lazy regexes

All regexes the classifier applies to response bodies have the shape
`lit₁(.*?)lit₂` or `lit₁(.*?)lit₂(.*?)lit₃` with literal delimiters and lazy
(`*?`) captures.  JavaScript semantics: the match starts at the leftmost
possible index, each lazy group takes the shortest text that lets the rest of
the pattern match, and `.` does not cross line terminators. -/

/-- A line terminator, which `.` never matches in a JavaScript regex. -/
def lineTerm (c : Char) : Bool :=
  c = '\n' || c = '\r' || c = ' ' || c = ' '

/-- Lazy capture: the shortest terminator-free prefix of `s` after which
`post` matches; returns the capture and the suffix following `post`. -/
def lazyCap (post : List Char) : List Char → Option (List Char × List Char)
  | [] => if post.isPrefixOf ([] : List Char) then some ([], []) else none
  | c :: rest =>
    if post.isPrefixOf (c :: rest) then some ([], (c :: rest).drop post.length)
    else if lineTerm c then none
    else
      match lazyCap post rest with
      | some (cap, suf) => some (c :: cap, suf)
      | none => none

/-- Two lazy captures `(.*?)mid(.*?)post` with backtracking: the first capture
grows only when no completion of the rest of the pattern exists. -/
def lazyCap2 (mid post : List Char) :
    List Char → Option (List Char × List Char × List Char)
  | [] =>
    match (if mid.isPrefixOf ([] : List Char)
           then lazyCap post (([] : List Char).drop mid.length) else none) with
    | some (c2, suf) => some ([], c2, suf)
    | none => none
  | c :: rest =>
    match (if mid.isPrefixOf (c :: rest)
           then lazyCap post ((c :: rest).drop mid.length) else none) with
    | some (c2, suf) => some ([], c2, suf)
    | none =>
      if lineTerm c then none
      else
        match lazyCap2 mid post rest with
        | some (c1, c2, suf) => some (c :: c1, c2, suf)
        | none => none

/-- Leftmost match of `pre(.*?)post` in `s`, returning the capture. -/
def searchMatch1 (pre post : List Char) : List Char → Option (List Char)
  | [] =>
    match (if pre.isPrefixOf ([] : List Char)
           then lazyCap post (([] : List Char).drop pre.length) else none) with
    | some (cap, _) => some cap
    | none => none
  | c :: rest =>
    match (if pre.isPrefixOf (c :: rest)
           then lazyCap post ((c :: rest).drop pre.length) else none) with
    | some (cap, _) => some cap
    | none => searchMatch1 pre post rest

/-- Leftmost match of `pre(.*?)mid(.*?)post` in `s`, returning both captures. -/
def searchMatch2 (pre mid post : List Char) :
    List Char → Option (List Char × List Char)
  | [] =>
    match (if pre.isPrefixOf ([] : List Char)
           then lazyCap2 mid post (([] : List Char).drop pre.length) else none) with
    | some (c1, c2, _) => some (c1, c2)
    | none => none
  | c :: rest =>
    match (if pre.isPrefixOf (c :: rest)
           then lazyCap2 mid post ((c :: rest).drop pre.length) else none) with
    | some (c1, c2, _) => some (c1, c2)
    | none => searchMatch2 pre mid post rest

/-- `s.match(/pre(.*?)post/)`, returning group 1. -/
def jsMatch1 (pre post s : String) : Option String :=
  (searchMatch1 pre.data post.data s.data).map (fun l => ⟨l⟩)

/-- `s.match(/pre(.*?)mid(.*?)post/)`, returning groups 1 and 2. -/
def jsMatch2 (pre mid post s : String) : Option (String × String) :=
  (searchMatch2 pre.data mid.data post.data s.data).map
    (fun p => (⟨p.1⟩, ⟨p.2⟩))

/-! ## Responses and the checkpoint classifiers -/

/-- The slice of an HTTP response the classifiers inspect: the final request
URL (`resp.request.uri.href`, `none` when a link of the optional chain is
missing) and the body (`none` when missing). -/
structure Resp where
  href : Option String
  body : Option String
deriving DecidableEq, Repr

/-- `resp?.request?.uri?.href?.includes(pat)`, falsy when the URL is missing. -/
def respIncl (resp : Resp) (pat : String) : Bool :=
  match resp.href with
  | none => false
  | some h => strIncludes h pat

/-- The checkpoint path every classifier tests for. -/
def checkpointURL : String := "https://www.facebook.com/checkpoint/"

/-- Fields of `suspendReasons` in `checkIfSuspended` (each set only when its
pattern captured non-empty text). -/
structure SuspendReasons where
  durationInfo : Option String
  longReason : Option String
  shortReason : Option String
deriving DecidableEq, Repr

/-- `checkIfSuspended`'s successful result `{ suspended: true, suspendReasons }`. -/
structure SuspendResult where
  suspended : Bool
  suspendReasons : SuspendReasons
deriving DecidableEq, Repr

/-- The boilerplate the code strips from the lowercased suspension reason. -/
def suspendBoilerplate : String :=
  "your account, or activity on it, doesn\x27t follow our community standards on "

/-- The `suspendReasons` object built from the response body: the duration is
group 2 of `/"log_out_uri":"(.*?)","title":"(.*?)"/`, the long reason group 1
of `/"reason_section_body":"(.*?)"/`, and the short reason is the lowercased
long reason with the boilerplate removed and its first character capitalized. -/
def suspendReasonsOf (body : Option String) : SuspendReasons :=
  let durationInfo :=
    match body with
    | none => none
    | some b =>
      match jsMatch2 "\"log_out_uri\":\"" "\",\"title\":\"" "\"" b with
      | some (_, t) => if t ≠ "" then some t else none
      | none => none
  match body with
  | none => { durationInfo, longReason := none, shortReason := none }
  | some b =>
    match jsMatch1 "\"reason_section_body\":\"" "\"" b with
    | some r =>
      if r ≠ "" then
        let reasonReplace := jsReplaceEmpty (toLowerStr r) suspendBoilerplate
        { durationInfo, longReason := some r,
          shortReason := some (capFirst reasonReplace) }
      else
        { durationInfo, longReason := none, shortReason := none }
    | none => { durationInfo, longReason := none, shortReason := none }

/-- `checkIfSuspended(resp, ...)`: a result is produced exactly when the final
URL contains the checkpoint path and the suspension flow identifier
`1501092823525282`; `none` is the JavaScript `undefined` return. -/
def checkIfSuspended (resp : Resp) : Option SuspendResult :=
  if respIncl resp checkpointURL then
    if respIncl resp "1501092823525282" then
      some { suspended := true, suspendReasons := suspendReasonsOf resp.body }
    else none
  else none

/-- Fields of `lockedReasons` in `checkIfLocked`. -/
structure LockedReasons where
  reason : Option String
deriving DecidableEq, Repr

/-- `checkIfLocked`'s successful result `{ locked: true, lockedReasons }`. -/
structure LockedResult where
  locked : Bool
  lockedReasons : LockedReasons
deriving DecidableEq, Repr

/-- `checkIfLocked(resp, ...)`: requires the checkpoint path and the lock flow
identifier `828281030927956` in the final URL.  The body is read without
optional chaining (`resp.body.match`), so a missing body raises and the
surrounding `catch` turns the call into `undefined` (`none`). -/
def checkIfLocked (resp : Resp) : Option LockedResult :=
  if respIncl resp checkpointURL then
    if respIncl resp "828281030927956" then
      match resp.body with
      | none => none
      | some b =>
        let reason :=
          match jsMatch1 "\"is_unvetted_flow\":true,\"title\":\"" "\"" b with
          | some t => if t ≠ "" then some t else none
          | none => none
        some { locked := true, lockedReasons := { reason } }
    else none
  else none

/-- The branch decision of `bypassAutoBehavior(resp, ...)`: either return the
response unchanged, or (checkpoint path plus automation flow identifier
`601051028565049` in the final URL) issue the silent `FBScrapingWarningMutation`
POST.  The POST's token fields come from the external `utils.getFrom` and do
not matter to the claims, so only the decision is modelled. -/
inductive BypassOutcome where
  | passthrough
  | bypassPost
deriving DecidableEq, Repr

/-- Which branch `bypassAutoBehavior` takes. -/
def bypassAutoBehavior (resp : Resp) : BypassOutcome :=
  if respIncl resp checkpointURL then
    if respIncl resp "601051028565049" then .bypassPost
    else .passthrough
  else .passthrough

/-! ## Cookies and `normalizeAppState` -/

/-- A normalized cookie, the element type `normalizeAppState` produces. -/
structure Cookie where
  key : String
  value : String
  domain : String
  path : String
  expires : Nat
deriving DecidableEq, Repr

/-- A raw cookie record as supplied by the caller: every field may be absent,
and `key` may be spelled `name`. -/
structure RawCookie where
  key : Option String
  name : Option String
  value : Option String
  domain : Option String
  path : Option String
  expires : Option Nat
deriving DecidableEq, Repr

/-- The three accepted `appState` shapes plus anything else (`other`), which
`normalizeAppState` rejects.  `wrapped` is an object `{ cookies: ... }` whose
`cookies` field is itself re-normalized. -/
inductive AppStateInput where
  | str (s : String)
  | arr (cs : List RawCookie)
  | wrapped (inner : AppStateInput)
  | other
deriving DecidableEq, Repr

/-- JavaScript truthiness of the `appState` argument (`""` is falsy, arrays
and objects, even empty, are truthy). -/
def appStateTruthy : Option AppStateInput → Bool
  | none => false
  | some (.str s) => s ≠ ""
  | some _ => true

/-- JavaScript `a || d` for an optional string default (`""` falls through). -/
def jsOrStr (o : Option String) (d : String) : String :=
  match o with
  | some s => if s = "" then d else s
  | none => d

/-- JavaScript `a || d` for an optional number default (`0` falls through). -/
def jsOrNat (o : Option Nat) (d : Nat) : Nat :=
  match o with
  | some n => if n = 0 then d else n
  | none => d

/-- The default expiry offset `1000 * 60 * 60 * 24 * 365` (one year in ms). -/
def yearMs : Nat := 1000 * 60 * 60 * 24 * 365

/-- `array.map(f)` where `f` may throw: the first throw aborts the map. -/
def mapEx (f : α → Except String β) : List α → Except String (List β)
  | [] => .ok []
  | x :: xs =>
    match f x with
    | .error e => .error e
    | .ok y =>
      match mapEx f xs with
      | .error e => .error e
      | .ok ys => .ok (y :: ys)

/-- One entry of the string form: `const [key, value] = c.split("=")`; both
pieces must be truthy, then both are trimmed and the platform defaults are
attached (`now` is `new Date().getTime()`). -/
def parseCookiePair (now : Nat) (c : List Char) : Except String Cookie :=
  let parts := splitChar '=' c
  let key := parts.getD 0 []
  let value := parts.getD 1 []
  if key = [] ∨ parts.length < 2 ∨ value = [] then
    .error "Invalid cookie string format"
  else
    .ok { key := ⟨trimL key⟩, value := ⟨trimL value⟩,
          domain := ".facebook.com", path := "/", expires := now + yearMs }

/-- The string branch of `normalizeAppState`: split on `";"`, keep the pieces
with non-blank trim, parse each; a parse error is re-thrown with the
`Failed to parse appState string:` prefix. -/
def normalizeString (now : Nat) (s : String) : Except String (List Cookie) :=
  match mapEx (parseCookiePair now)
      ((splitChar ';' s.data).filter (fun c => trimL c ≠ [])) with
  | .ok l => .ok l
  | .error e => .error ("Failed to parse appState string: " ++ e)

/-- One entry of the array form: `key = c.key || c.name` and `c.value` must be
truthy, then trims and `||`-defaults for domain, path and expiry. -/
def normalizeRaw (now : Nat) (c : RawCookie) : Except String Cookie :=
  let key := if optTruthy c.key then c.key else c.name
  match key with
  | none => .error "Invalid cookie object in array"
  | some k =>
    if k = "" then .error "Invalid cookie object in array"
    else
      match c.value with
      | none => .error "Invalid cookie object in array"
      | some v =>
        if v = "" then .error "Invalid cookie object in array"
        else
          .ok { key := jsTrim k, value := jsTrim v,
                domain := jsOrStr c.domain ".facebook.com",
                path := jsOrStr c.path "/",
                expires := jsOrNat c.expires (now + yearMs) }

/-- The present-input part of `normalizeAppState`: dispatch on the shape of a
truthy-or-recursive `appState`.  The wrapped form re-enters the function on
its `cookies` field when that field is truthy (the re-entry's own falsy check
then passes trivially), and falls through to the unsupported-format throw
otherwise. -/
def normalizeAppStateSome (now : Nat) :
    AppStateInput → Except String (List Cookie)
  | .str s => if s = "" then .ok [] else normalizeString now s
  | .arr cs => mapEx (normalizeRaw now) cs
  | .wrapped inner =>
      if appStateTruthy (some inner) then normalizeAppStateSome now inner
      else .error "Unsupported appState format"
  | .other => .error "Unsupported appState format"

/-- `normalizeAppState(appState)`: falsy input yields `[]`, the three accepted
shapes are normalized (the wrapped form recursively), anything else throws. -/
def normalizeAppState (now : Nat) :
    Option AppStateInput → Except String (List Cookie)
  | none => .ok []
  | some a => normalizeAppStateSome now a

/-! ## `getCookie` -/

/-- The allow-list `importantKeys` of `getCookie`. -/
def importantKeys : List String :=
  [ "datr", "sb", "ps_l", "ps_n", "m_pixel_ratio", "c_user", "fr", "xs",
    "i_user", "locale", "fbl_st", "vpd", "wl_cbv" ]

/-- `api.getCookie()`: the cookie jar's contents (the result of the external
`utils.getAppState(jar)`) are the `jarState` parameter; they are normalized,
an empty state yields `""`, otherwise the `key=value` strings whose leading
field is allow-listed are joined with `"; "`. -/
def getCookie (now : Nat) (jarState : Option AppStateInput) :
    Except String String :=
  match normalizeAppState now jarState with
  | .error e => .error e
  | .ok appState =>
    .ok (if appState.length = 0 then ""
         else joinSep "; "
           (((appState.map fun c => c.key ++ "=" ++ c.value)).filter
             (fun ck => importantKeys.contains (firstField ck))))

/-! ## `updateDTSG`'s persisted token map -/

/-- One persisted entry `{ fb_dtsg, jazoest }` of `fb_dtsg_data.json`. -/
structure TokenPair where
  fb_dtsg : String
  jazoest : String
deriving DecidableEq, Repr

/-- The read-modify-write step of `updateDTSG`: the on-disk JSON object is the
map `existing`; when both extracted tokens are truthy (the extraction itself
uses the external `utils.getFrom`, so its results are parameters) the entry
for `UID` is overwritten with them and everything else is rewritten as read;
otherwise the file is left alone. -/
def updateDTSGData (existing : String → Option TokenPair) (UID : String)
    (fb_dtsg jazoest : Option String) : String → Option TokenPair :=
  if optTruthy fb_dtsg && optTruthy jazoest then
    fun k =>
      if k = UID then some ⟨fb_dtsg.getD "", jazoest.getD ""⟩ else existing k
  else existing

/-! ## `makeLogin`'s redirect decision -/

/-- What `makeLogin` does after the credential-submission POST resolves. -/
inductive MakeLoginNext where
  | twoFA
  | fetchHome
deriving DecidableEq, Repr

/-- Lines 634-643 of the login module: no truthy `headers.location` throws
`Invalid credentials.`; a checkpoint location enters `handle2FA`; otherwise
the home page is fetched. -/
def makeLoginDecision (location : Option String) :
    Except String MakeLoginNext :=
  if ¬ optTruthy location then .error "Invalid credentials."
  else if strIncludes (location.getD "") checkpointURL then .ok .twoFA
  else .ok .fetchHome

/-! ## The orchestrator's final checkpoint check and credential routing -/

/-- The typed failures the orchestrator can throw from its final check: the
objects returned by `checkIfLocked` and `checkIfSuspended`. -/
inductive FinalFailure where
  | locked (l : LockedResult)
  | suspended (s : SuspendResult)
deriving DecidableEq, Repr

/-- Lines 879-888 of `loginHelper`: on the final response, a truthy
`checkIfLocked` result is thrown first, then a truthy `checkIfSuspended`
result; only otherwise is the API handed to the callback (`ok`). -/
def finalCheck (resp : Resp) : Except FinalFailure Unit :=
  match checkIfLocked resp with
  | some l => .error (.locked l)
  | none =>
    match checkIfSuspended resp with
    | some s => .error (.suspended s)
    | none => .ok ()

/-- Normalized credentials, the output of `normalizeLoginCredentials`. -/
structure Creds where
  appState : Option (List Cookie)
  email : Option String
  password : Option String
deriving DecidableEq, Repr

/-- The caller-supplied login object; `none` stands for a missing or
non-object argument. -/
structure LoginData where
  appState : Option AppStateInput
  email : Option String
  password : Option String
deriving DecidableEq, Repr

/-- `normalizeLoginCredentials(loginData)`: a truthy `appState` is normalized
(its parse errors propagate); otherwise a truthy email/password pair is
accepted with the email trimmed; otherwise the call throws. -/
def normalizeLoginCredentials (now : Nat) (loginData : Option LoginData) :
    Except String Creds :=
  match loginData with
  | none => .error "Invalid loginData: must be an object"
  | some d =>
    if appStateTruthy d.appState then
      match normalizeAppState now d.appState with
      | .error e => .error e
      | .ok cs => .ok { appState := some cs, email := none, password := none }
    else if optTruthy d.email && optTruthy d.password then
      .ok { appState := none, email := some (jsTrim (d.email.getD "")),
            password := d.password }
    else .error "Invalid credentials: provide appState, email/password"

/-- The network path `loginHelper` enters before any request is made. -/
inductive LoginRoute where
  | sessionInject (cs : List Cookie)
  | passwordLogin (email password : String)
deriving DecidableEq, Repr

/-- The routing at the top of `loginHelper`: a non-empty `appState` is
injected into the jar, else an email/password pair starts the credential
flow, else `Unsupported credential type` is thrown before any network step. -/
def loginRoute (credentials : Creds) : Except String LoginRoute :=
  if (match credentials.appState with
      | some cs => cs.length != 0
      | none => false) then
    .ok (.sessionInject (credentials.appState.getD []))
  else if optTruthy credentials.email && optTruthy credentials.password then
    .ok (.passwordLogin (credentials.email.getD "") (credentials.password.getD ""))
  else .error "Unsupported credential type"

/-! ## `api.setOptions`'s region and endpoint recomputation -/

/-- The slice of the API context `api.setOptions` mutates, plus the `userID`
its endpoint template reads.  `region` and `mqttEndpoint` start out
`undefined` in `buildAPI`. -/
structure Ctx where
  userID : String
  region : Option String
  mqttEndpoint : Option String
deriving DecidableEq, Repr

/-- The realtime endpoint template. -/
def mqttURL (region userID : String) : String :=
  "wss://edge-chat.facebook.com/chat?region=" ++ region ++ "&sid=" ++ userID

/-- The context mutation of `api.setOptions` (lines 478-494): when a truthy
`bypassRegion` differs from the current region it is validated (falling back
to a random region when validation throws), otherwise the region is set to a
random region; the endpoint is then recomputed unconditionally.  `i` is the
random index of `getRandomRegion`; the global-options update performed first
does not touch the context and is not modelled here. -/
def apiSetOptions (ctx : Ctx) (bypassRegion : Option String) (i : Nat) : Ctx :=
  let newRegion :=
    if optTruthy bypassRegion && bypassRegion != ctx.region then
      match validateRegion bypassRegion with
      | .ok r => r.code
      | .error _ => (getRandomRegion i).code
    else (getRandomRegion i).code
  { ctx with region := some newRegion,
             mqttEndpoint := some (mqttURL newRegion ctx.userID) }

/-! ## Supporting lemmas -/

instance {ε α : Type} [DecidableEq ε] [DecidableEq α] :
    DecidableEq (Except ε α) := fun a b =>
  match a, b with
  | .ok x, .ok y => decidable_of_iff (x = y) (by simp)
  | .ok _, .error _ => isFalse (by simp)
  | .error _, .ok _ => isFalse (by simp)
  | .error e, .error f => decidable_of_iff (e = f) (by simp)

/-- An occurrence in the right part survives prepending on the left. -/
theorem containsL_append_right (pat a b : List Char)
    (h : containsL pat b = true) : containsL pat (a ++ b) = true := by
  induction a with
  | nil => simpa using h
  | cons c a ih =>
    rw [List.cons_append, containsL]
    exact Bool.or_eq_true_iff.mpr (Or.inr ih)

/-- Uppercasing preserves emptiness. -/
theorem toUpperStr_eq_empty_iff (s : String) : toUpperStr s = "" ↔ s = "" := by
  obtain ⟨l⟩ := s
  constructor
  · intro h
    have hd := congrArg String.data h
    simp only [toUpperStr] at hd
    have : l = [] := List.map_eq_nil_iff.mp hd
    rw [this]
  · intro h
    rw [h]
    rfl

/-- Every catalog code is its own uppercase form and non-empty. -/
theorem defaultRegions_codes_upper :
    ∀ r ∈ defaultRegions, toUpperStr r.code = r.code ∧ r.code ≠ "" := by
  decide

/-- Searching the catalog for a catalog member's code finds that member. -/
theorem defaultRegions_find_self :
    ∀ r ∈ defaultRegions,
      defaultRegions.find? (fun x => toUpperStr x.code == r.code) = some r := by
  decide

/-- Every catalog code occurs in the `supportedRegions` listing. -/
theorem supportedRegions_covers :
    ∀ r ∈ defaultRegions, strIncludes supportedRegions r.code = true := by
  decide

/-- Validating a catalog member's own code returns that member. -/
theorem validateRegion_code_self :
    ∀ r ∈ defaultRegions, validateRegion (some r.code) = .ok r := by
  decide

/-- `validateRegion` only returns catalog members. -/
theorem validateRegion_ok_mem (o : Option String) (r : Region)
    (h : validateRegion o = .ok r) : r ∈ defaultRegions := by
  match o with
  | none => simp [validateRegion] at h
  | some s =>
    rw [validateRegion] at h
    split at h
    · simp at h
    · dsimp only at h
      split at h
      next r' hf =>
        cases h
        exact List.mem_of_find?_eq_some hf
      next => simp at h

/-- A successful `mapEx` has one output per input. -/
theorem mapEx_ok_length {α β : Type} (f : α → Except String β) :
    ∀ (xs : List α) (ys : List β), mapEx f xs = .ok ys → ys.length = xs.length := by
  intro xs
  induction xs with
  | nil => intro ys h; rw [mapEx] at h; cases h; rfl
  | cons x xs ih =>
    intro ys h
    rw [mapEx] at h
    cases hfx : f x with
    | error e => rw [hfx] at h; cases h
    | ok y =>
      rw [hfx] at h
      cases hrest : mapEx f xs with
      | error e => rw [hrest] at h; cases h
      | ok ys' =>
        rw [hrest] at h
        cases h
        simp [ih ys' hrest]

/-- Every output of a successful `mapEx` comes from some input. -/
theorem mapEx_ok_mem {α β : Type} (f : α → Except String β) :
    ∀ (xs : List α) (ys : List β), mapEx f xs = .ok ys →
      ∀ c ∈ ys, ∃ x ∈ xs, f x = .ok c := by
  intro xs
  induction xs with
  | nil =>
    intro ys h c hc
    rw [mapEx] at h; cases h; cases hc
  | cons x xs ih =>
    intro ys h c hc
    rw [mapEx] at h
    cases hfx : f x with
    | error e => rw [hfx] at h; cases h
    | ok y =>
      rw [hfx] at h
      cases hrest : mapEx f xs with
      | error e => rw [hrest] at h; cases h
      | ok ys' =>
        rw [hrest] at h
        cases h
        cases hc with
        | head => exact ⟨x, List.mem_cons_self x xs, hfx⟩
        | tail _ hc =>
          obtain ⟨x', hx', hfx'⟩ := ih ys' hrest c hc
          exact ⟨x', List.mem_cons_of_mem x hx', hfx'⟩

/-- A successful `mapEx` maps inputs to outputs position by position. -/
theorem mapEx_ok_zip {α β : Type} (f : α → Except String β) :
    ∀ (xs : List α) (ys : List β), mapEx f xs = .ok ys →
      ∀ p ∈ xs.zip ys, f p.1 = .ok p.2 := by
  intro xs
  induction xs with
  | nil =>
    intro ys h p hp
    rw [mapEx] at h; cases h; cases hp
  | cons x xs ih =>
    intro ys h p hp
    rw [mapEx] at h
    cases hfx : f x with
    | error e => rw [hfx] at h; cases h
    | ok y =>
      rw [hfx] at h
      cases hrest : mapEx f xs with
      | error e => rw [hrest] at h; cases h
      | ok ys' =>
        rw [hrest] at h
        cases h
        cases hp with
        | head => exact hfx
        | tail _ hp => exact ih ys' hrest p hp

/-- Cookies parsed from the string form carry the platform defaults. -/
theorem parseCookiePair_ok (now : Nat) (c : List Char) (ck : Cookie)
    (h : parseCookiePair now c = .ok ck) :
    ck.expires = now + yearMs ∧ ck.domain = ".facebook.com" := by
  rw [parseCookiePair] at h
  split at h
  · cases h
  · cases h; exact ⟨rfl, rfl⟩

/-- Cookies normalized from the array form take the `||`-default expiry. -/
theorem normalizeRaw_ok (now : Nat) (rc : RawCookie) (ck : Cookie)
    (h : normalizeRaw now rc = .ok ck) :
    ck.expires = jsOrNat rc.expires (now + yearMs) := by
  rw [normalizeRaw] at h
  split at h
  · cases h
  next k hk =>
    split at h
    · cases h
    · split at h
      · cases h
      · split at h
        · cases h
        · cases h; rfl

/-! ## Claim theorems -/

/-- C1.  On the final response of every login attempt, `loginHelper` runs the
lock and suspension classifiers once more; an `AccountLocked` or
`AccountSuspended` outcome makes the final step throw that typed failure
(lock first, then suspension) instead of handing the API to the callback. -/
theorem finalCheck_blocks (resp : Resp) :
    (∀ l, checkIfLocked resp = some l →
        finalCheck resp = .error (.locked l)) ∧
    (∀ s, checkIfLocked resp = none → checkIfSuspended resp = some s →
        finalCheck resp = .error (.suspended s)) ∧
    (((checkIfLocked resp).isSome ∨ (checkIfSuspended resp).isSome) →
        finalCheck resp ≠ .ok ()) := by
  refine ⟨?_, ?_, ?_⟩
  · intro l hl
    rw [finalCheck, hl]
  · intro s hl hs
    rw [finalCheck, hl, hs]
  · intro hor heq
    rw [finalCheck] at heq
    cases hl : checkIfLocked resp with
    | some l => rw [hl] at heq; cases heq
    | none =>
      rw [hl] at heq
      cases hs : checkIfSuspended resp with
      | some s => rw [hs] at heq; cases heq
      | none =>
        rw [hl] at hor
        rw [hs] at hor
        rcases hor with h | h <;> cases h

/-- A final response sitting on the locked checkpoint flow. -/
def respLockedWit : Resp :=
  { href := some "https://www.facebook.com/checkpoint/828281030927956",
    body := some "\"is_unvetted_flow\":true,\"title\":\"Account locked\"" }

/-- Witness for C1 at a concrete locked final response. -/
theorem finalCheck_blocks_witness :
    finalCheck respLockedWit =
      .error (.locked ⟨true, ⟨some "Account locked"⟩⟩) ∧
    finalCheck respLockedWit ≠ .ok () :=
  ⟨(finalCheck_blocks respLockedWit).1 ⟨true, ⟨some "Account locked"⟩⟩
      (by decide),
   (finalCheck_blocks respLockedWit).2.2 (Or.inl (by decide))⟩

/-- C3.  When the final URL does not contain the checkpoint path, none of the
three classifiers reports anything, whatever the body holds. -/
theorem noCheckpoint_noOutcome (resp : Resp)
    (h : respIncl resp checkpointURL = false) :
    checkIfSuspended resp = none ∧ checkIfLocked resp = none ∧
    bypassAutoBehavior resp = .passthrough := by
  refine ⟨?_, ?_, ?_⟩
  · rw [checkIfSuspended, h]; rfl
  · rw [checkIfLocked, h]; rfl
  · rw [bypassAutoBehavior, h]; rfl

/-- A checkpoint-free response whose body nevertheless carries suspension,
lock and duration markers. -/
def respHomeWit : Resp :=
  { href := some "https://www.facebook.com/home.php",
    body := some ("\"log_out_uri\":\"u\",\"title\":\"7 days\"" ++
      ",\"reason_section_body\":\"spam\"" ++
      ",\"is_unvetted_flow\":true,\"title\":\"locked\"") }

/-- Witness for C3 at a concrete checkpoint-free response. -/
theorem noCheckpoint_noOutcome_witness :
    checkIfSuspended respHomeWit = none ∧ checkIfLocked respHomeWit = none ∧
    bypassAutoBehavior respHomeWit = .passthrough :=
  noCheckpoint_noOutcome respHomeWit (by decide)

/-- C4.  In the credential flow, `makeLogin` throws the fatal
`Invalid credentials.` error exactly when the submission response carries no
truthy redirect location (a missing or empty `headers.location`). -/
theorem makeLogin_noLocation (location : Option String) :
    makeLoginDecision location = .error "Invalid credentials." ↔
      optTruthy location = false := by
  constructor
  · intro h
    by_contra hne
    have ht : optTruthy location = true := by
      cases hv : optTruthy location
      · exact absurd hv hne
      · rfl
    rw [makeLoginDecision, ht] at h
    simp only [Bool.true_eq_false, not_true_eq_false, if_false] at h
    split at h <;> cases h
  · intro h
    rw [makeLoginDecision, h]
    rfl

/-- Witness for C4 at a response with no location header at all. -/
theorem makeLogin_noLocation_witness :
    makeLoginDecision none = .error "Invalid credentials." :=
  (makeLogin_noLocation none).mpr (by decide)

/-- C8.  The read-modify-write of `updateDTSG`: after persisting a truthy
token pair for `uid`, the map read back holds exactly that pair under `uid`
and is untouched at every other key. -/
theorem updateDTSG_roundtrip (m : String → Option TokenPair)
    (uid d j : String) (hd : d ≠ "") (hj : j ≠ "") :
    updateDTSGData m uid (some d) (some j) uid = some ⟨d, j⟩ ∧
    ∀ k, k ≠ uid → updateDTSGData m uid (some d) (some j) k = m k := by
  have htr : (optTruthy (some d) && optTruthy (some j)) = true := by
    simp [optTruthy, hd, hj]
  constructor
  · rw [updateDTSGData, htr]
    simp
  · intro k hk
    rw [updateDTSGData, htr]
    simp [hk]

/-- A persisted map holding an entry for another user. -/
def dtsgMapWit : String → Option TokenPair :=
  fun k => if k = "200" then some ⟨"x", "y"⟩ else none

/-- Witness for C8: write for user `100`, read back both keys. -/
theorem updateDTSG_roundtrip_witness :
    updateDTSGData dtsgMapWit "100" (some "tok") (some "123") "100" =
      some ⟨"tok", "123"⟩ ∧
    updateDTSGData dtsgMapWit "100" (some "tok") (some "123") "200" =
      dtsgMapWit "200" :=
  ⟨(updateDTSG_roundtrip dtsgMapWit "100" "tok" "123" (by decide)
      (by decide)).1,
   (updateDTSG_roundtrip dtsgMapWit "100" "tok" "123" (by decide)
      (by decide)).2 "200" (by decide)⟩

/-- C10.  `{appState: []}` normalizes successfully to an empty stored
session, and `loginHelper`'s routing then throws `Unsupported credential
type` before any network step. -/
theorem emptyAppState_route (now : Nat) :
    normalizeLoginCredentials now
        (some { appState := some (.arr []), email := none, password := none }) =
      .ok { appState := some [], email := none, password := none } ∧
    loginRoute { appState := some [], email := none, password := none } =
      .error "Unsupported credential type" :=
  ⟨rfl, rfl⟩

/-- Witness for C10 at the clock value zero. -/
theorem emptyAppState_route_witness :
    normalizeLoginCredentials 0
        (some { appState := some (.arr []), email := none, password := none }) =
      .ok { appState := some [], email := none, password := none } ∧
    loginRoute { appState := some [], email := none, password := none } =
      .error "Unsupported credential type" :=
  emptyAppState_route 0

/-- C6.  Region validation accepts every catalog code case-insensitively
(returning the catalog entry whose code matches the trimmed, uppercased
input), is idempotent (re-validating a returned region's code returns the
same region), and rejects every non-catalog string with an error message
listing all valid codes. -/
theorem validateRegion_catalog :
    (∀ r ∈ defaultRegions, ∀ s : String, toUpperStr (jsTrim s) = r.code →
        validateRegion (some s) = .ok r) ∧
    (∀ (s : String) (r : Region), validateRegion (some s) = .ok r →
        validateRegion (some r.code) = .ok r) ∧
    (∀ s : String, (∀ r ∈ defaultRegions, toUpperStr (jsTrim s) ≠ r.code) →
        ∃ msg, validateRegion (some s) = .error msg ∧
          ∀ r ∈ defaultRegions, strIncludes msg r.code = true) := by
  refine ⟨?_, ?_, ?_⟩
  · intro r hr s h
    have hne : r.code ≠ "" := (defaultRegions_codes_upper r hr).2
    have htr : ¬ (s = "" ∨ jsTrim s = "") := by
      rintro (hs | hs)
      · rw [hs] at h
        exact hne (by rw [← h]; rfl)
      · rw [hs] at h
        exact hne (by rw [← h]; rfl)
    rw [validateRegion, if_neg htr]
    dsimp only
    rw [h, defaultRegions_find_self r hr]
  · intro s r h
    exact validateRegion_code_self r (validateRegion_ok_mem (some s) r h)
  · intro s hmiss
    rw [validateRegion]
    by_cases hb : s = "" ∨ jsTrim s = ""
    · rw [if_pos hb]
      refine ⟨_, rfl, ?_⟩
      intro r hr
      rw [strIncludes, String.data_append]
      exact containsL_append_right _ _ _ (supportedRegions_covers r hr)
    · rw [if_neg hb]
      dsimp only
      have hfind : defaultRegions.find?
          (fun x => toUpperStr x.code == toUpperStr (jsTrim s)) = none := by
        rw [List.find?_eq_none]
        intro x hx hbeq
        have hxcode : toUpperStr x.code = x.code :=
          (defaultRegions_codes_upper x hx).1
        have : toUpperStr x.code = toUpperStr (jsTrim s) := by
          exact of_decide_eq_true hbeq
        exact hmiss x hx (by rw [← hxcode, this])
      rw [hfind]
      refine ⟨_, rfl, ?_⟩
      intro r hr
      rw [strIncludes, String.data_append]
      exact containsL_append_right _ _ _ (supportedRegions_covers r hr)

/-- Witness for C6: lowercase acceptance, idempotence and a rejected code. -/
theorem validateRegion_catalog_witness :
    validateRegion (some "prn") =
      .ok ⟨"PRN", "Pacific Northwest Region", "Pacific Northwest"⟩ ∧
    validateRegion (some "PRN") =
      .ok ⟨"PRN", "Pacific Northwest Region", "Pacific Northwest"⟩ ∧
    ∃ msg, validateRegion (some "zzz") = .error msg ∧
      ∀ r ∈ defaultRegions, strIncludes msg r.code = true :=
  ⟨validateRegion_catalog.1
      ⟨"PRN", "Pacific Northwest Region", "Pacific Northwest"⟩ (by decide)
      "prn" (by decide),
   validateRegion_catalog.2.1 "prn"
      ⟨"PRN", "Pacific Northwest Region", "Pacific Northwest"⟩ (by decide),
   validateRegion_catalog.2.2 "zzz" (by decide)⟩

/-- The uniqueness property asserted by the spec, stated from its words
("keys unique per domain in the effective store"): no two entries of the
normalized array share both key and domain. -/
def specKeysUniquePerDomain (l : List Cookie) : Prop :=
  l.Pairwise (fun c d => ¬ (c.key = d.key ∧ c.domain = d.domain))

/-- C5 counterexample: two array entries with the same key and the default
domain are both kept by `normalizeAppState` — no per-domain deduplication
(last-write-wins or otherwise) happens, refuting the uniqueness part of the
claim. -/
theorem normalizeAppState_unique_cex :
    normalizeAppState 0 (some (.arr
      [ { key := some "a", name := none, value := some "1",
          domain := none, path := none, expires := none },
        { key := some "a", name := none, value := some "2",
          domain := none, path := none, expires := none } ])) =
      .ok [ ⟨"a", "1", ".facebook.com", "/", 0 + yearMs⟩,
            ⟨"a", "2", ".facebook.com", "/", 0 + yearMs⟩ ] ∧
    ¬ specKeysUniquePerDomain
        [ ⟨"a", "1", ".facebook.com", "/", 0 + yearMs⟩,
          ⟨"a", "2", ".facebook.com", "/", 0 + yearMs⟩ ] := by
  constructor
  · rfl
  · intro h
    rcases h with _ | ⟨h1, _⟩
    exact h1 _ (List.mem_singleton.mpr rfl) ⟨rfl, rfl⟩

/-- C5 amended.  Normalization of the three stored-session forms maps the
entries one by one, preserving order and duplicates: the string form stamps
every cookie with the root domain and the one-year default expiry, the array
form keeps a truthy explicit expiry and defaults the rest (absent or zero),
and the wrapped form behaves exactly like its inner `cookies` array. -/
theorem normalizeAppState_amended :
    (∀ (now : Nat) (s : String) (l : List Cookie),
        normalizeAppState now (some (.str s)) = .ok l →
        ∀ c ∈ l, c.expires = now + yearMs ∧ c.domain = ".facebook.com") ∧
    (∀ (now : Nat) (cs : List RawCookie) (l : List Cookie),
        normalizeAppState now (some (.arr cs)) = .ok l →
        l.length = cs.length ∧
        ∀ p ∈ cs.zip l, p.2.expires = jsOrNat p.1.expires (now + yearMs)) ∧
    (∀ (now : Nat) (cs : List RawCookie) (l : List Cookie),
        normalizeAppState now (some (.wrapped (.arr cs))) = .ok l →
        normalizeAppState now (some (.arr cs)) = .ok l) := by
  refine ⟨?_, ?_, ?_⟩
  · intro now s l h c hc
    simp only [normalizeAppState, normalizeAppStateSome] at h
    split at h
    · cases h
      cases hc
    · rw [normalizeString] at h
      cases hm : mapEx (parseCookiePair now)
          ((splitChar ';' s.data).filter (fun c => trimL c ≠ [])) with
      | error e => rw [hm] at h; cases h
      | ok l' =>
        rw [hm] at h
        cases h
        obtain ⟨x, _, hx⟩ := mapEx_ok_mem _ _ _ hm c hc
        exact parseCookiePair_ok now x c hx
  · intro now cs l h
    simp only [normalizeAppState, normalizeAppStateSome] at h
    exact ⟨mapEx_ok_length _ _ _ h,
      fun p hp => normalizeRaw_ok now p.1 p.2 (mapEx_ok_zip _ _ _ h p hp)⟩
  · intro now cs l h
    simp only [normalizeAppState, normalizeAppStateSome, appStateTruthy] at h
    simp only [normalizeAppState, normalizeAppStateSome]
    exact h

/-- Witness for C5 (amended) covering all three forms at concrete inputs:
a string cookie, an array entry with and one without explicit expiry, and
the same array in wrapped form. -/
theorem normalizeAppState_amended_witness :
    (Cookie.expires ⟨"a", "1", ".facebook.com", "/", 0 + yearMs⟩ = 0 + yearMs ∧
      Cookie.domain ⟨"a", "1", ".facebook.com", "/", 0 + yearMs⟩ =
        ".facebook.com") ∧
    ([ (⟨"b", "2", ".facebook.com", "/", 7⟩ : Cookie) ].length =
      [ ({ key := some "b", name := none, value := some "2", domain := none,
           path := none, expires := some 7 } : RawCookie) ].length ∧
      ∀ p ∈ [ ({ key := some "b", name := none, value := some "2",
                 domain := none, path := none,
                 expires := some 7 } : RawCookie) ].zip
              [ (⟨"b", "2", ".facebook.com", "/", 7⟩ : Cookie) ],
        p.2.expires = jsOrNat p.1.expires (0 + yearMs)) ∧
    normalizeAppState 0 (some (.arr
        [ { key := some "b", name := none, value := some "2", domain := none,
            path := none, expires := some 7 } ])) =
      .ok [ ⟨"b", "2", ".facebook.com", "/", 7⟩ ] :=
  ⟨normalizeAppState_amended.1 0 "a=1"
      [⟨"a", "1", ".facebook.com", "/", 0 + yearMs⟩] rfl
      ⟨"a", "1", ".facebook.com", "/", 0 + yearMs⟩ (List.mem_singleton.mpr rfl),
   normalizeAppState_amended.2.1 0
      [ { key := some "b", name := none, value := some "2", domain := none,
          path := none, expires := some 7 } ]
      [ ⟨"b", "2", ".facebook.com", "/", 7⟩ ] rfl,
   normalizeAppState_amended.2.2 0
      [ { key := some "b", name := none, value := some "2", domain := none,
          path := none, expires := some 7 } ]
      [ ⟨"b", "2", ".facebook.com", "/", 7⟩ ] rfl⟩

/-- C7.  For every cookie-store state, `getCookie()` returns the `"; "`-join
of `key=value` parts whose leading field is on the `importantKeys` allow-list
(so no trailing separator and no foreign key can appear), and the empty
string on an empty app state. -/
theorem getCookie_allowList (now : Nat) (jarState : Option AppStateInput)
    (cs : List Cookie) (h : normalizeAppState now jarState = .ok cs) :
    (cs = [] → getCookie now jarState = .ok "") ∧
    ∃ parts, getCookie now jarState = .ok (joinSep "; " parts) ∧
      ∀ p ∈ parts, importantKeys.contains (firstField p) = true := by
  constructor
  · intro hcs
    rw [getCookie, h, hcs]
    rfl
  · by_cases hlen : cs.length = 0
    · refine ⟨[], ?_, by intro p hp; cases hp⟩
      simp only [getCookie, h]
      rw [if_pos hlen]
      rfl
    · refine ⟨(cs.map fun c => c.key ++ "=" ++ c.value).filter
          (fun ck => importantKeys.contains (firstField ck)), ?_, ?_⟩
      · simp only [getCookie, h]
        rw [if_neg hlen]
      · intro p hp
        simpa using List.of_mem_filter hp

/-- A jar state with one allow-listed and one foreign cookie. -/
def jarStateWit : Option AppStateInput :=
  some (.arr
    [ { key := some "c_user", name := none, value := some "100",
        domain := none, path := none, expires := none },
      { key := some "zzz", name := none, value := some "9",
        domain := none, path := none, expires := none },
      { key := some "xs", name := none, value := some "abc",
        domain := none, path := none, expires := none } ])

/-- Witness for C7 at a concrete jar state. -/
theorem getCookie_allowList_witness :
    ∃ parts, getCookie 0 jarStateWit = .ok (joinSep "; " parts) ∧
      ∀ p ∈ parts, importantKeys.contains (firstField p) = true :=
  (getCookie_allowList 0 jarStateWit
      [ ⟨"c_user", "100", ".facebook.com", "/", 0 + yearMs⟩,
        ⟨"zzz", "9", ".facebook.com", "/", 0 + yearMs⟩,
        ⟨"xs", "abc", ".facebook.com", "/", 0 + yearMs⟩ ] rfl).2

/-- The short reason asserted by the claim, stated from its words: the long
reason with the fixed boilerplate prefix stripped and the first character
capitalized (no lowercasing of the remainder). -/
def specShortReason (longReason : String) : String :=
  capFirst (jsReplaceEmpty longReason suspendBoilerplate)

/-- A long reason whose tail is not all-lowercase. -/
def suspLongCex : String := suspendBoilerplate ++ "spAM"

/-- A checkpoint response on the suspension flow carrying both the duration
and the reason markers, with `suspLongCex` as the reason text. -/
def respSuspCex : Resp :=
  { href := some "https://www.facebook.com/checkpoint/1501092823525282",
    body := some ("\"log_out_uri\":\"u\",\"title\":\"3 days\"" ++
      ",\"reason_section_body\":\"" ++ suspLongCex ++ "\"") }

/-- C2 counterexample: on `respSuspCex` the code produces the short reason
`Spam` — it lowercases the whole long reason before stripping the boilerplate
— while the claim's reading (strip, then capitalize, keeping the remainder's
case) demands `SpAM`. -/
theorem checkIfSuspended_shortReason_cex :
    checkIfSuspended respSuspCex =
      some ⟨true, ⟨some "3 days", some suspLongCex, some "Spam"⟩⟩ ∧
    specShortReason suspLongCex = "SpAM" ∧
    (some "Spam" : Option String) ≠ some (specShortReason suspLongCex) :=
  ⟨by decide, by decide, by decide⟩

/-- C2 amended.  On every response whose URL carries the checkpoint path and
the suspension flow identifier and whose body matches both the duration and
the reason patterns with non-empty captures, classification returns
`AccountSuspended` carrying the captured duration and long reason, and a
short reason equal to the **lowercased** long reason with the boilerplate
prefix stripped and the first character capitalized. -/
theorem checkIfSuspended_amended (href b u t r : String)
    (h1 : strIncludes href checkpointURL = true)
    (h2 : strIncludes href "1501092823525282" = true)
    (hm2 : jsMatch2 "\"log_out_uri\":\"" "\",\"title\":\"" "\"" b =
      some (u, t))
    (ht : t ≠ "")
    (hm1 : jsMatch1 "\"reason_section_body\":\"" "\"" b = some r)
    (hr : r ≠ "") :
    checkIfSuspended { href := some href, body := some b } =
      some { suspended := true,
             suspendReasons :=
               { durationInfo := some t, longReason := some r,
                 shortReason := some (capFirst (jsReplaceEmpty (toLowerStr r)
                   suspendBoilerplate)) } } := by
  have hi1 : respIncl { href := some href, body := some b } checkpointURL
      = true := h1
  have hi2 : respIncl { href := some href, body := some b } "1501092823525282"
      = true := h2
  rw [checkIfSuspended, hi1, hi2]
  simp only [if_true]
  rw [suspendReasonsOf]
  simp only [hm2, hm1, ht, hr]
  simp [ht, hr]

/-- Witness for C2 (amended) at the counterexample response. -/
theorem checkIfSuspended_amended_witness :
    checkIfSuspended respSuspCex =
      some { suspended := true,
             suspendReasons :=
               { durationInfo := some "3 days", longReason := some suspLongCex,
                 shortReason := some (capFirst (jsReplaceEmpty
                   (toLowerStr suspLongCex) suspendBoilerplate)) } } :=
  checkIfSuspended_amended
    "https://www.facebook.com/checkpoint/1501092823525282"
    ("\"log_out_uri\":\"u\",\"title\":\"3 days\"" ++
      ",\"reason_section_body\":\"" ++ suspLongCex ++ "\"")
    "u" "3 days" suspLongCex
    (by decide) (by decide) (by decide) (by decide) (by decide) (by decide)

/-- A context already holding the `PRN` region and its endpoint. -/
def ctxCex : Ctx :=
  { userID := "100001", region := some "PRN",
    mqttEndpoint := some (mqttURL "PRN" "100001") }

/-- C9 counterexample: an `api.setOptions` call with no `bypassRegion` at all
(so no change to the region override) still rewrites the context's region to
a random catalog pick (here index 1, `VLL`) and recomputes the endpoint. -/
theorem apiSetOptions_noChange_cex :
    (apiSetOptions ctxCex none 1).region = some "VLL" ∧
    (apiSetOptions ctxCex none 1).region ≠ ctxCex.region ∧
    (apiSetOptions ctxCex none 1).mqttEndpoint ≠ ctxCex.mqttEndpoint := by
  decide

/-- C9 amended.  `api.setOptions` recomputes the context's region and
endpoint on every call: a truthy `bypassRegion` different from the current
region is validated and adopted (random fallback when invalid), any other
call adopts a random catalog region, and the endpoint is always rebuilt from
the resulting region and the unchanged user id. -/
theorem apiSetOptions_amended (ctx : Ctx) (bp : Option String) (i : Nat)
    (hi : i < defaultRegions.length) :
    ((optTruthy bp && bp != ctx.region) = true →
        ∀ r, validateRegion bp = .ok r →
          (apiSetOptions ctx bp i).region = some r.code) ∧
    ((optTruthy bp && bp != ctx.region) = true →
        ∀ e, validateRegion bp = .error e →
          (apiSetOptions ctx bp i).region = some (getRandomRegion i).code) ∧
    ((optTruthy bp && bp != ctx.region) = false →
        (apiSetOptions ctx bp i).region = some (getRandomRegion i).code) ∧
    getRandomRegion i ∈ defaultRegions ∧
    (apiSetOptions ctx bp i).mqttEndpoint =
      some (mqttURL (((apiSetOptions ctx bp i).region).getD "") ctx.userID) ∧
    (apiSetOptions ctx bp i).userID = ctx.userID := by
  refine ⟨?_, ?_, ?_, ?_, ?_, rfl⟩
  · intro hcond r hv
    simp [apiSetOptions, hcond, hv]
  · intro hcond e hv
    simp [apiSetOptions, hcond, hv]
  · intro hcond
    simp [apiSetOptions, hcond]
  · rw [getRandomRegion, List.getD_eq_getElem defaultRegions _ hi]
    exact List.getElem_mem hi
  · simp [apiSetOptions]

/-- Witness for C9 (amended): an adopted valid override, a random fallback on
an invalid override, and a random adoption with no override. -/
theorem apiSetOptions_amended_witness :
    (apiSetOptions ctxCex (some "vll") 0).region = some "VLL" ∧
    (apiSetOptions ctxCex (some "zzz") 0).region =
      some (getRandomRegion 0).code ∧
    (apiSetOptions ctxCex none 0).region = some (getRandomRegion 0).code ∧
    getRandomRegion 0 ∈ defaultRegions ∧
    (apiSetOptions ctxCex (some "vll") 0).mqttEndpoint =
      some (mqttURL (((apiSetOptions ctxCex (some "vll") 0).region).getD "")
        ctxCex.userID) :=
  ⟨(apiSetOptions_amended ctxCex (some "vll") 0 (by decide)).1 (by decide)
      ⟨"VLL", "Valley Region", "Valley"⟩ (by decide),
   (apiSetOptions_amended ctxCex (some "zzz") 0 (by decide)).2.1 (by decide)
      ("Invalid region code: zzz. Supported regions: " ++ supportedRegions)
      (by decide),
   (apiSetOptions_amended ctxCex none 0 (by decide)).2.2.1 (by decide),
   (apiSetOptions_amended ctxCex none 0 (by decide)).2.2.2.1,
   (apiSetOptions_amended ctxCex (some "vll") 0 (by decide)).2.2.2.2.1⟩

end Fbvibex
